import Mathlib

/-!
Shallow embedding of the pfc-app aggregation engine.

Monetary amounts are modelled as rationals; `Math.round(x * 100) / 100`
becomes `round2`.  JS `Math.round` rounds half toward positive infinity,
i.e. `Math.round x = ⌊x + 1/2⌋`.

Calendar days are modelled as integer day numbers (day 0 = 1970-01-01,
a Thursday), so JS `Date` day arithmetic (`setDate`, day-overflow
normalization in the `Date` constructor) is plain integer addition and
`Date.getDay` (Sunday = 0) is `(d + 4) % 7`.

The database is modelled as in-memory lists of rows; the route handlers'
post-query logic is transcribed over those lists.
-/

namespace PfcApp

/-- JS `Math.round`: round half toward positive infinity. -/
def jsRound (x : ℚ) : ℤ := (x + 1/2).floor

/-- Fact: `jsRound` agrees with the mathematical floor of `x + 1/2`. -/
theorem jsRound_eq_floor (x : ℚ) : jsRound x = ⌊x + 1/2⌋ :=
  (Rat.floor_def' (x + 1/2)).trans Rat.floor_def.symm

/-- Model of `Math.round(x * 100) / 100`: round to 2 decimal places. -/
def round2 (x : ℚ) : ℚ := (jsRound (x * 100) : ℚ) / 100

/-- Evaluation rule for `round2` on concrete rationals: if `n` is the
integer with `n ≤ 100 x + 1/2 < n + 1` then `round2 x = n / 100`. -/
theorem round2_eval (x : ℚ) (n : ℤ) (h1 : (n : ℚ) ≤ x * 100 + 1/2)
    (h2 : x * 100 + 1/2 < n + 1) : round2 x = (n : ℚ) / 100 := by
  unfold round2
  rw [jsRound_eq_floor, Int.floor_eq_iff.mpr ⟨h1, by exact_mod_cast h2⟩]

theorem round2_zero : round2 0 = 0 := by
  rw [round2_eval 0 0 (by norm_num) (by norm_num)]
  norm_num

/-- Fact: `round2` of an integer-valued rational is itself. -/
theorem round2_intCast (n : ℤ) : round2 (n : ℚ) = (n : ℚ) := by
  rw [round2_eval (n : ℚ) (n * 100) (by push_cast; nlinarith) (by push_cast; nlinarith)]
  push_cast
  field_simp

/-! ## spend-summary route (src/app/api/spend-summary/route.ts) -/

/-- The `Period` type of the spend-summary route. -/
inductive Period
  | current_month
  | last_30_days
deriving DecidableEq, Repr

/-- Lines 69-72: `validPeriods.includes(periodParam) ? periodParam : 'current_month'`;
`searchParams.get` yields `none` when the parameter is missing. -/
def parsePeriod (periodParam : Option String) : Period :=
  if periodParam = some "current_month" then Period.current_month
  else if periodParam = some "last_30_days" then Period.last_30_days
  else Period.current_month

/-- The joined account data selected with each transaction row. -/
structure AccountData where
  id : String
  name : String
  type : Option String
  subtype : Option String
  is_shared_source : Bool
deriving DecidableEq, Repr

/-- A transaction row as returned by the query (joined with its account). -/
structure TransactionRow where
  id : String
  date : String
  merchant_name : String
  amount : ℚ
  normalized_category : Option String
  is_shared : Bool
  account_id : String
  accounts : AccountData
deriving DecidableEq, Repr

/-- A transaction as placed in the response (`Transaction` interface). -/
structure ResponseTransaction where
  id : String
  date : String
  description : String
  amount : ℚ
  normalizedCategory : Option String
  isShared : Bool
deriving DecidableEq, Repr

/-- The `AccountSummary` record of the response. -/
structure AccountSummary where
  accountId : String
  accountName : String
  type : Option String
  subtype : Option String
  isSharedSource : Bool
  totalAmount : ℚ
  transactionCount : ℕ
  transactions : List ResponseTransaction
deriving DecidableEq, Repr

/-- The `SpendSummaryResponse` record (the resolved start/end dates are handled by the
date-range model below and omitted from this record). -/
structure SpendSummaryResponse where
  period : Period
  sharedOnly : Bool
  totalAmount : ℚ
  accounts : List AccountSummary
  categories : List String
deriving DecidableEq, Repr

/-- Lines 146-150: the `sharedOnly` filter. -/
def filteredTransactions (sharedOnly : Bool) (txs : List TransactionRow) :
    List TransactionRow :=
  if sharedOnly then
    txs.filter (fun tx => tx.accounts.is_shared_source || tx.is_shared)
  else txs

/-- Lines 196-203: the transaction object pushed into an account summary. -/
def mkResponseTransaction (tx : TransactionRow) : ResponseTransaction :=
  { id := tx.id
    date := tx.date
    description := tx.merchant_name
    amount := round2 tx.amount
    normalizedCategory := tx.normalized_category
    isShared := tx.is_shared }

/-- Lines 176-204: one step of the `accountMap` accumulation.  The JS `Map`
keeps insertion order, so it is modelled as a list updated in place, with
new keys appended at the end. -/
def addTxToAccounts : List AccountSummary → TransactionRow → List AccountSummary
  | [], tx =>
      [{ accountId := tx.account_id
         accountName := tx.accounts.name
         type := tx.accounts.type
         subtype := tx.accounts.subtype
         isSharedSource := tx.accounts.is_shared_source
         totalAmount := tx.amount
         transactionCount := 1
         transactions := [mkResponseTransaction tx] }]
  | a :: rest, tx =>
      if a.accountId = tx.account_id then
        { a with
            totalAmount := a.totalAmount + tx.amount
            transactionCount := a.transactionCount + 1
            transactions := a.transactions ++ [mkResponseTransaction tx] } :: rest
      else a :: addTxToAccounts rest tx

/-- The full `accountMap` accumulation over the filtered transactions. -/
def groupByAccount (txs : List TransactionRow) : List AccountSummary :=
  txs.foldl addTxToAccounts []

/-- Lines 152-158: the category set; JS truthiness also drops the empty
string.  JS `Set` keeps insertion order; new entries are appended. -/
def collectCategories (txs : List TransactionRow) : List String :=
  txs.foldl
    (fun acc tx =>
      match tx.normalized_category with
      | some c => if c = "" then acc else if c ∈ acc then acc else acc ++ [c]
      | none => acc)
    []

/-- One step of a stable insertion sort: `x` is placed before the first
element `y` with `before x y = true`.  With `before x y` true on ties this
matches the stable JS `Array.prototype.sort`. -/
def sortInsert {α : Type} (before : α → α → Bool) (x : α) : List α → List α
  | [] => [x]
  | y :: ys => if before x y then x :: y :: ys else y :: sortInsert before x ys

/-- Stable sort (elements earlier in the input are inserted later, each in
front of its ties), modelling JS `Array.prototype.sort`. -/
def stableSort {α : Type} (before : α → α → Bool) (l : List α) : List α :=
  l.foldr (sortInsert before) []

/-- Line 159: `Array.from(categorySet).sort()` (default lexicographic). -/
def sortedCategories (txs : List TransactionRow) : List String :=
  stableSort (fun a b => decide (a ≤ b)) (collectCategories txs)

/-- Sum of the raw amounts of a transaction list. -/
def sumAmounts (txs : List TransactionRow) : ℚ := (txs.map (fun tx => tx.amount)).sum

/-- Sum of the (not yet rounded) per-account totals. -/
def sumTotals (accs : List AccountSummary) : ℚ :=
  (accs.map (fun a => a.totalAmount)).sum

/-- The `GET` handler of the spend-summary route, after the query returned
`txs` (already restricted to the user and date range).  Lines 63-123
parse parameters and short-circuit on an empty result; lines 145-223
filter, group, total and round. -/
def spendSummaryGET (periodParam sharedOnlyParam : Option String)
    (txs : List TransactionRow) : SpendSummaryResponse :=
  let period := parsePeriod periodParam
  let sharedOnly := sharedOnlyParam == some "true"
  if txs.isEmpty then
    { period := period, sharedOnly := sharedOnly, totalAmount := 0,
      accounts := [], categories := [] }
  else
    let filtered := filteredTransactions sharedOnly txs
    let categories := sortedCategories filtered
    let accountsRaw := groupByAccount filtered
    let totalAmount := round2 (sumTotals accountsRaw)
    let accounts :=
      accountsRaw.map (fun a => { a with totalAmount := round2 a.totalAmount })
    { period := period, sharedOnly := sharedOnly, totalAmount := totalAmount,
      accounts := accounts, categories := categories }

/-! ### Aggregation lemmas -/

theorem sumTotals_addTxToAccounts (accs : List AccountSummary)
    (tx : TransactionRow) :
    sumTotals (addTxToAccounts accs tx) = sumTotals accs + tx.amount := by
  induction accs with
  | nil => simp [addTxToAccounts, sumTotals]
  | cons a rest ih =>
      by_cases h : a.accountId = tx.account_id
      · simp [addTxToAccounts, h, sumTotals]
        ring
      · simp [addTxToAccounts, h, sumTotals] at ih ⊢
        rw [ih]
        ring

theorem sumTotals_foldl (txs : List TransactionRow)
    (accs : List AccountSummary) :
    sumTotals (txs.foldl addTxToAccounts accs) = sumTotals accs + sumAmounts txs := by
  induction txs generalizing accs with
  | nil => simp [sumAmounts]
  | cons tx rest ih =>
      simp only [List.foldl_cons]
      rw [ih, sumTotals_addTxToAccounts]
      simp [sumAmounts]
      ring

theorem sumTotals_groupByAccount (txs : List TransactionRow) :
    sumTotals (groupByAccount txs) = sumAmounts txs := by
  rw [groupByAccount, sumTotals_foldl]
  simp [sumTotals]

/-! ### Concrete inputs -/

/-- A plain account (not a shared source). -/
def acctA : AccountData :=
  { id := "a1", name := "Account A", type := none, subtype := none,
    is_shared_source := false }

/-- A second plain account. -/
def acctB : AccountData :=
  { id := "a2", name := "Account B", type := none, subtype := none,
    is_shared_source := false }

/-- Two transactions of half a cent each, on two different accounts. -/
def roundingDriftTxs : List TransactionRow :=
  [ { id := "t1", date := "2025-01-05", merchant_name := "M1", amount := 1/200,
      normalized_category := some "OTHER", is_shared := false,
      account_id := "a1", accounts := acctA },
    { id := "t2", date := "2025-01-06", merchant_name := "M2", amount := 1/200,
      normalized_category := some "OTHER", is_shared := false,
      account_id := "a2", accounts := acctB } ]

/-- The shared-source account of the spec scenario. -/
def sharedAcct : AccountData :=
  { id := "sh", name := "Shared Credit Card", type := none, subtype := none,
    is_shared_source := true }

/-- The personal account of the spec scenario. -/
def personalAcct : AccountData :=
  { id := "pc", name := "Personal Checking", type := none, subtype := none,
    is_shared_source := false }

/-- Spec scenario: a shared-source account with 3 transactions totalling 120,
and a personal account with one 40 transaction marked shared and one 25
transaction not shared. -/
def sharedScenarioTxs : List TransactionRow :=
  [ { id := "s1", date := "2025-01-02", merchant_name := "G1", amount := 50,
      normalized_category := some "GROCERY", is_shared := false,
      account_id := "sh", accounts := sharedAcct },
    { id := "s2", date := "2025-01-03", merchant_name := "G2", amount := 30,
      normalized_category := some "GROCERY", is_shared := false,
      account_id := "sh", accounts := sharedAcct },
    { id := "s3", date := "2025-01-04", merchant_name := "R1", amount := 40,
      normalized_category := some "RESTAURANTS", is_shared := false,
      account_id := "sh", accounts := sharedAcct },
    { id := "p1", date := "2025-01-05", merchant_name := "R2", amount := 40,
      normalized_category := some "RESTAURANTS", is_shared := true,
      account_id := "pc", accounts := personalAcct },
    { id := "p2", date := "2025-01-06", merchant_name := "S1", amount := 25,
      normalized_category := some "SHOPPING", is_shared := false,
      account_id := "pc", accounts := personalAcct } ]

/-! ### Claim C1 -/

/-- C1 (counterexample): with two half-cent transactions on two accounts, the
sum of the individually rounded per-account totals (0.01 + 0.01 = 0.02) does
not equal the response's `totalAmount` (round2 of the unrounded sum,
0.01) — the claimed reconciliation fails. -/
theorem spendSummary_accountTotals_drift :
    ((spendSummaryGET none none roundingDriftTxs).accounts.map
        (fun a => a.totalAmount)).sum
      ≠ (spendSummaryGET none none roundingDriftTxs).totalAmount := by
  have e1 : round2 (1/200) = 1/100 :=
    (round2_eval (1/200) 1 (by norm_num) (by norm_num)).trans (by norm_num)
  have e2 : round2 (1/100) = 1/100 :=
    (round2_eval (1/100) 1 (by norm_num) (by norm_num)).trans (by norm_num)
  have hs : ("a1" : String) ≠ "a2" := by decide
  unfold spendSummaryGET roundingDriftTxs acctA acctB
  norm_num [filteredTransactions, groupByAccount, addTxToAccounts, sumTotals,
    sortedCategories, collectCategories, stableSort, sortInsert,
    mkResponseTransaction, e1, e2, hs]

/-- C1 (amended): for every non-empty transaction list, the response's
`totalAmount` equals `round2` of the sum of all (filtered) raw amounts; the
per-account totals are rounded individually afterwards, so their sum may
drift from `totalAmount` by accumulated rounding. -/
theorem spendSummary_totalAmount_eq_round_sum (pp sp : Option String)
    (txs : List TransactionRow) (h : txs ≠ []) :
    (spendSummaryGET pp sp txs).totalAmount
      = round2 (sumAmounts (filteredTransactions (sp == some "true") txs)) := by
  have he : txs.isEmpty = false := by
    cases txs with
    | nil => exact absurd rfl h
    | cons a l => rfl
  unfold spendSummaryGET
  simp only [he, Bool.false_eq_true, if_false]
  rw [sumTotals_groupByAccount]

/-- Witness for the amended C1 theorem at a concrete non-empty input. -/
theorem spendSummary_totalAmount_eq_round_sum_witness :
    (spendSummaryGET none none roundingDriftTxs).totalAmount
      = round2 (sumAmounts (filteredTransactions
          ((none : Option String) == some "true") roundingDriftTxs)) :=
  spendSummary_totalAmount_eq_round_sum none none roundingDriftTxs (by decide)

/-! ### Claim C2 -/

/-- C2: with `sharedOnly`, exactly the transactions whose account is a shared
source or which are themselves marked shared are retained; and on the spec
scenario (shared-source account with 120 across 3 transactions, personal
account with a shared 40 and a non-shared 25) the total is 160. -/
theorem sharedOnly_filter_spec :
    (∀ (txs : List TransactionRow) (tx : TransactionRow),
        tx ∈ filteredTransactions true txs ↔
          tx ∈ txs ∧ (tx.accounts.is_shared_source = true ∨ tx.is_shared = true))
    ∧ (spendSummaryGET none (some "true") sharedScenarioTxs).totalAmount = 160 := by
  constructor
  · intro txs tx
    simp [filteredTransactions, List.mem_filter, Bool.or_eq_true]
  · have e160 : round2 160 = 160 :=
      (round2_eval 160 16000 (by norm_num) (by norm_num)).trans (by norm_num)
    have hs : ("sh" : String) ≠ "pc" := by decide
    unfold spendSummaryGET sharedScenarioTxs sharedAcct personalAcct
    norm_num [filteredTransactions, groupByAccount, addTxToAccounts, sumTotals,
      sortedCategories, collectCategories, stableSort, sortInsert,
      mkResponseTransaction, e160, hs]

/-! ### Claim C10 -/

/-- C10: a missing or unrecognized `period` query parameter is treated as
`current_month` (no validation error), and the response's `period` field then
reports `current_month`. -/
theorem period_param_defaults (p sp : Option String) (txs : List TransactionRow)
    (h1 : p ≠ some "current_month") (h2 : p ≠ some "last_30_days") :
    parsePeriod p = Period.current_month
    ∧ (spendSummaryGET p sp txs).period = Period.current_month := by
  have hp : parsePeriod p = Period.current_month := by
    simp [parsePeriod, h1, h2]
  refine ⟨hp, ?_⟩
  unfold spendSummaryGET
  by_cases he : txs.isEmpty <;> simp [he, hp]

/-- Witness for C10 at the concrete unrecognized parameter \"bogus\". -/
theorem period_param_defaults_witness :
    parsePeriod (some "bogus") = Period.current_month
    ∧ (spendSummaryGET (some "bogus") none []).period = Period.current_month :=
  period_param_defaults (some "bogus") none [] (by decide) (by decide)

/-! ## Date ranges

Calendar days are integer day numbers (day 0 = 1970-01-01, a Thursday).
JS `Date` day arithmetic (`setDate` with out-of-range values, and
`new Date(y, m, day + 1)`) normalizes at the calendar level, which is
exactly integer addition on day numbers. -/

/-- JS `Date.prototype.getDay`: 0 = Sunday, ..., 6 = Saturday.
Day 0 (1970-01-01) was a Thursday, hence the offset 4. -/
def jsGetDay (d : ℤ) : ℤ := (d + 4) % 7

/-- The week portion of `getDateRanges` (src/app/api/category-trend/route.ts
lines 165-192 and src/unnamed/part_006 lines 51-75): Monday-start week.
`weekEnd` is the same-day 23:59:59.999 bound, i.e. start + 6 at day
granularity.  The month portion of `getDateRanges` is not needed by any
claim and is omitted. -/
def getDateRanges_week (d : ℤ) : ℤ × ℤ :=
  let dayOfWeek := jsGetDay d
  let daysFromMonday := if dayOfWeek = 0 then 6 else dayOfWeek - 1
  let weekStart := d - daysFromMonday
  let weekEnd := weekStart + 6
  (weekStart, weekEnd)

/-- Model of `getDateRange` for `last_30_days` (src/app/api/spend-summary/route.ts
lines 39-43): `endDate` is tomorrow, `startDate` is `endDate - 30`. -/
def getDateRange_last30 (d : ℤ) : ℤ × ℤ :=
  let endDate := d + 1
  let startDate := endDate - 30
  (startDate, endDate)

/-! ### Claim C3 -/

/-- C3: for every \"now\", the current-week range starts on a Monday, ends on
a Sunday, and spans exactly 7 days; when \"now\" is a Sunday the week start
is 6 days prior. -/
theorem currentWeek_monday_start (d : ℤ) :
    jsGetDay (getDateRanges_week d).1 = 1
    ∧ jsGetDay (getDateRanges_week d).2 = 0
    ∧ (getDateRanges_week d).2 - (getDateRanges_week d).1 + 1 = 7
    ∧ (jsGetDay d = 0 → (getDateRanges_week d).1 = d - 6) := by
  have h1 : (getDateRanges_week d).1
      = d - (if (d + 4) % 7 = 0 then 6 else (d + 4) % 7 - 1) := rfl
  have h2 : (getDateRanges_week d).2
      = d - (if (d + 4) % 7 = 0 then 6 else (d + 4) % 7 - 1) + 6 := rfl
  rw [h1, h2, jsGetDay, jsGetDay, jsGetDay]
  split_ifs with h <;> omega

/-- Witness for C3 at day 3 (1970-01-04, a Sunday). -/
theorem currentWeek_monday_start_witness :
    jsGetDay (getDateRanges_week 3).1 = 1
    ∧ jsGetDay (getDateRanges_week 3).2 = 0
    ∧ (getDateRanges_week 3).2 - (getDateRanges_week 3).1 + 1 = 7
    ∧ (getDateRanges_week 3).1 = 3 - 6 := by
  have h := currentWeek_monday_start 3
  exact ⟨h.1, h.2.1, h.2.2.1, h.2.2.2 (by decide)⟩

/-! ### Claim C4 -/

/-- C4: the last-30-days range has exclusive end \"now\" + 1 (tomorrow),
start = end - 30, hence spans exactly 30 days and contains today. -/
theorem last30Days_range (d : ℤ) :
    (getDateRange_last30 d).2 = d + 1
    ∧ (getDateRange_last30 d).2 - (getDateRange_last30 d).1 = 30
    ∧ (getDateRange_last30 d).1 ≤ d
    ∧ d < (getDateRange_last30 d).2 := by
  have h1 : (getDateRange_last30 d).1 = d + 1 - 30 := rfl
  have h2 : (getDateRange_last30 d).2 = d + 1 := rfl
  rw [h1, h2]
  omega

/-! ## Budget evaluator (src/my-finance-app/lib/sharedLogic.ts) -/

/-- A shared transaction as returned by
`getSharedTransactionsForCurrentMonth` (sharedLogic.ts lines 3-11). -/
structure SharedTransaction where
  id : String
  date : String
  amount : ℚ
  merchant_name : Option String
  normalized_category : Option String
  is_shared : Bool
  account_name : Option String
deriving DecidableEq, Repr

/-- A budget row (`budgets` table). -/
structure Budget where
  id : String
  name : String
  normalized_category : String
  period_type : String
  amount : ℚ
  max_visits : Option ℤ
deriving DecidableEq, Repr

/-- The `BudgetStatus` record computed by `getBudgetStatus`. -/
structure BudgetStatus where
  id : String
  name : String
  normalized_category : String
  period_type : String
  amount : ℚ
  max_visits : Option ℤ
  monthToDateSpend : ℚ
  visitCount : ℕ
  remainingAmount : ℚ
  remainingVisits : Option ℤ
  projectedSpend : ℚ
deriving DecidableEq, Repr

/-- Month-to-date spend: `transactions.reduce((sum, tx) => sum + tx.amount, 0)`. -/
def monthToDateSpendOf (transactions : List SharedTransaction) : ℚ :=
  (transactions.map (fun tx => tx.amount)).sum

/-- Model of `getBudgetStatus` (sharedLogic.ts lines 152-204), after the budget row
was found and the month's shared transactions for its category were
fetched.  `currentDay` and `totalDays` come from `getMonthDayInfo`. -/
def getBudgetStatus (budget : Budget) (transactions : List SharedTransaction)
    (currentDay totalDays : ℕ) : BudgetStatus :=
  let monthToDateSpend := monthToDateSpendOf transactions
  let visitCount := transactions.length
  let remainingAmount := budget.amount - monthToDateSpend
  let remainingVisits := budget.max_visits.map (fun mv => mv - (visitCount : ℤ))
  let projectedSpend :=
    if 0 < currentDay ∧ 0 < monthToDateSpend then
      (monthToDateSpend / (currentDay : ℚ)) * (totalDays : ℚ)
    else 0
  { id := budget.id
    name := budget.name
    normalized_category := budget.normalized_category
    period_type := budget.period_type
    amount := budget.amount
    max_visits := budget.max_visits
    monthToDateSpend := monthToDateSpend
    visitCount := visitCount
    remainingAmount := remainingAmount
    remainingVisits := remainingVisits
    projectedSpend := round2 projectedSpend }

/-- A budget of 300 for GROCERY. -/
def groceryBudget : Budget :=
  { id := "b1", name := "GROCERY", normalized_category := "GROCERY",
    period_type := "monthly", amount := 300, max_visits := none }

/-- A single shared transaction of amount 1. -/
def oneDollarTx : SharedTransaction :=
  { id := "x1", date := "2025-01-03", amount := 1, merchant_name := some "M",
    normalized_category := some "GROCERY", is_shared := true,
    account_name := some "A" }

/-! ### Claim C5 -/

/-- C5 (counterexample): with month-to-date spend 1, `currentDay = 3` and
`totalDays = 31`, the code reports `projectedSpend = 10.33` (rounded to two
decimals), not the exact run rate `(1/3) * 31 = 31/3`. -/
theorem projectedSpend_rounded_counterexample :
    (getBudgetStatus groceryBudget [oneDollarTx] 3 31).projectedSpend
      ≠ ((1 : ℚ) / 3) * 31 := by
  have e : round2 ((31 : ℚ) / 3) = 1033 / 100 :=
    (round2_eval _ 1033 (by norm_num) (by norm_num)).trans (by norm_num)
  simp only [getBudgetStatus, monthToDateSpendOf, groceryBudget, oneDollarTx,
    List.map_cons, List.map_nil, List.sum_cons, List.sum_nil]
  norm_num [e]

/-- C5 (amended): `projectedSpend` equals
`round2 ((monthToDateSpend / currentDay) * totalDays)` when
`currentDay > 0` and `monthToDateSpend > 0`, and 0 otherwise; and
`remainingAmount = budget.amount - monthToDateSpend` exactly, with negative
values permitted (no clamping). -/
theorem budgetStatus_formulas (budget : Budget)
    (transactions : List SharedTransaction) (currentDay totalDays : ℕ) :
    ((0 < currentDay ∧ 0 < monthToDateSpendOf transactions) →
        (getBudgetStatus budget transactions currentDay totalDays).projectedSpend
          = round2 ((monthToDateSpendOf transactions / (currentDay : ℚ))
              * (totalDays : ℚ)))
    ∧ (¬(0 < currentDay ∧ 0 < monthToDateSpendOf transactions) →
        (getBudgetStatus budget transactions currentDay totalDays).projectedSpend
          = 0)
    ∧ (getBudgetStatus budget transactions currentDay totalDays).remainingAmount
        = budget.amount - monthToDateSpendOf transactions := by
  refine ⟨fun h => ?_, fun h => ?_, rfl⟩
  · simp only [getBudgetStatus, if_pos h]
  · simp only [getBudgetStatus, if_neg h, round2_zero]

/-- Witness for C5 (amended) at the spec scenario numbers: budget 300,
345 spent across 4 transactions by day 10 of a 30-day month. -/
theorem budgetStatus_formulas_witness :
    (getBudgetStatus groceryBudget
        [{ oneDollarTx with id := "y1", amount := 100 },
         { oneDollarTx with id := "y2", amount := 100 },
         { oneDollarTx with id := "y3", amount := 100 },
         { oneDollarTx with id := "y4", amount := 45 }] 10 30).projectedSpend
      = round2 ((monthToDateSpendOf
          [{ oneDollarTx with id := "y1", amount := 100 },
           { oneDollarTx with id := "y2", amount := 100 },
           { oneDollarTx with id := "y3", amount := 100 },
           { oneDollarTx with id := "y4", amount := 45 }] / (10 : ℚ)) * (30 : ℚ))
    ∧ (getBudgetStatus groceryBudget
        [{ oneDollarTx with id := "y1", amount := 100 },
         { oneDollarTx with id := "y2", amount := 100 },
         { oneDollarTx with id := "y3", amount := 100 },
         { oneDollarTx with id := "y4", amount := 45 }] 10 30).remainingAmount
      = groceryBudget.amount - monthToDateSpendOf
          [{ oneDollarTx with id := "y1", amount := 100 },
           { oneDollarTx with id := "y2", amount := 100 },
           { oneDollarTx with id := "y3", amount := 100 },
           { oneDollarTx with id := "y4", amount := 45 }] := by
  have h := budgetStatus_formulas groceryBudget
    [{ oneDollarTx with id := "y1", amount := 100 },
     { oneDollarTx with id := "y2", amount := 100 },
     { oneDollarTx with id := "y3", amount := 100 },
     { oneDollarTx with id := "y4", amount := 45 }] 10 30
  exact ⟨h.1 ⟨by norm_num, by norm_num [monthToDateSpendOf, oneDollarTx]⟩, h.2.2⟩

/-! ## Trend calculator (src/app/api/category-trend/route.ts, first handler) -/

/-- A month/year tag as pushed by `getLastThreeMonths`. -/
structure MonthYear where
  month : ℤ
  year : ℤ
deriving DecidableEq, Repr

/-- Lines 25-35 of `getLastThreeMonths`: walk back from the current month
(`i = 2, 1, 0`), borrowing a year when the month index goes negative.
`currentMonth` is the JS 0-11 month index. -/
def getLastThreeMonths (currentMonth currentYear : ℤ) : List MonthYear :=
  ([2, 1, 0] : List ℤ).map (fun i =>
    let month := currentMonth - i
    if month < 0 then { month := month + 12, year := currentYear - 1 }
    else { month := month, year := currentYear })

/-- Model of `getMonthName` (lines 50-53); only ever applied to indices 0-11. -/
def getMonthName (monthIndex : ℤ) : String :=
  ["Jan", "Feb", "Mar", "Apr", "May", "Jun", "Jul", "Aug", "Sep", "Oct",
    "Nov", "Dec"].getD monthIndex.toNat ""

/-- A fetched transaction reduced to the fields the trend handler reads:
its calendar month index and year (derived from `tx.date`) and amount. -/
structure TrendTx where
  month : ℤ
  year : ℤ
  amount : ℚ
deriving DecidableEq, Repr

/-- One `MonthlySpend` data point of the response. -/
structure MonthlySpend where
  month : String
  monthIndex : ℤ
  year : ℤ
  amount : ℚ
  isCurrentMonth : Bool
deriving DecidableEq, Repr

/-- Lines 106-125: the per-month totals.  The `monthlyTotals` map is keyed
exactly by the three generated months, and a transaction contributes
`Math.abs(amount)` when its month/year key is one of them; so the total of
one key is the sum over the matching transactions. -/
def monthlyTotal (txs : List TrendTx) (m y : ℤ) : ℚ :=
  ((txs.filter (fun t => t.month == m && t.year == y)).map
    (fun t => |t.amount|)).sum

/-- Lines 128-137: the `monthlySpending` response array. -/
def categoryTrendMonthlySpending (currentMonth currentYear : ℤ)
    (txs : List TrendTx) : List MonthlySpend :=
  (getLastThreeMonths currentMonth currentYear).map (fun my =>
    { month := getMonthName my.month
      monthIndex := my.month
      year := my.year
      amount := round2 (monthlyTotal txs my.month my.year)
      isCurrentMonth := my.month == currentMonth && my.year == currentYear })

/-! ### Claim C7 -/

/-- C7: for every current month index 0-11, the trend response has exactly 3
data points: the current month and the two preceding ones (borrowing a year
when the index goes negative), each tagged with the short month name, the
0-11 index, the year, and `isCurrentMonth` true exactly on the last. -/
theorem trend_three_months (cm cy : ℤ) (txs : List TrendTx)
    (h0 : 0 ≤ cm) (h12 : cm < 12) :
    (categoryTrendMonthlySpending cm cy txs).length = 3
    ∧ (categoryTrendMonthlySpending cm cy txs).map
        (fun p => (p.month, p.monthIndex, p.year, p.isCurrentMonth))
      = [ (getMonthName (if cm - 2 < 0 then cm + 10 else cm - 2),
            if cm - 2 < 0 then cm + 10 else cm - 2,
            if cm - 2 < 0 then cy - 1 else cy, false),
          (getMonthName (if cm - 1 < 0 then cm + 11 else cm - 1),
            if cm - 1 < 0 then cm + 11 else cm - 1,
            if cm - 1 < 0 then cy - 1 else cy, false),
          (getMonthName cm, cm, cy, true) ] := by
  interval_cases cm <;>
    norm_num [categoryTrendMonthlySpending, getLastThreeMonths, beq_iff_eq]

/-- Witness for C7: requested in March (month index 2) of 2025 the points
are January, February, March, with `isCurrentMonth` only on March. -/
theorem trend_three_months_witness :
    (categoryTrendMonthlySpending 2 2025 []).length = 3
    ∧ (categoryTrendMonthlySpending 2 2025 []).map
        (fun p => (p.month, p.monthIndex, p.year, p.isCurrentMonth))
      = [("Jan", 0, 2025, false), ("Feb", 1, 2025, false),
          ("Mar", 2, 2025, true)] := by
  have h := trend_three_months 2 2025 [] (by norm_num) (by norm_num)
  refine ⟨h.1, (h.2.trans ?_)⟩
  decide

/-! ## Category rollups (src/app/dashboard/spend-summary.tsx,
`computeCategoryRollups`, lines 701-721) -/

/-- A per-category rollup. -/
structure CategoryRollup where
  category : String
  totalAmount : ℚ
  transactionCount : ℕ
deriving DecidableEq, Repr

/-- Model of `tx.normalizedCategory || 'Uncategorized'`: JS truthiness also replaces
the empty string. -/
def jsCategoryLabel (c : Option String) : String :=
  match c with
  | some s => if s = "" then "Uncategorized" else s
  | none => "Uncategorized"

/-- One step of the `categoryMap` accumulation (insertion-ordered, like the
JS `Map`). -/
def addToCategoryMap : List CategoryRollup → String → ℚ → List CategoryRollup
  | [], cat, amt => [{ category := cat, totalAmount := amt, transactionCount := 1 }]
  | e :: rest, cat, amt =>
      if e.category = cat then
        { e with totalAmount := e.totalAmount + amt,
                 transactionCount := e.transactionCount + 1 } :: rest
      else e :: addToCategoryMap rest cat amt

/-- Model of `computeCategoryRollups`: accumulate per category over every account's
transaction list, round each total to 2 decimals, then sort by
`(a, b) => b.totalAmount - a.totalAmount` — a stable sort descending by
total amount. -/
def computeCategoryRollups (accounts : List AccountSummary) :
    List CategoryRollup :=
  let categoryMap := accounts.foldl
    (fun m acc =>
      acc.transactions.foldl
        (fun m tx => addToCategoryMap m (jsCategoryLabel tx.normalizedCategory)
          tx.amount) m)
    []
  stableSort (fun a b => decide (b.totalAmount ≤ a.totalAmount))
    (categoryMap.map (fun e => { e with totalAmount := round2 e.totalAmount }))

/-! ### Stable-sort lemmas -/

theorem mem_sortInsert {α : Type} (before : α → α → Bool) (x a : α)
    (l : List α) : a ∈ sortInsert before x l ↔ a = x ∨ a ∈ l := by
  induction l with
  | nil => simp [sortInsert]
  | cons y ys ih =>
      by_cases h : before x y = true
      · simp [sortInsert, h]
      · simp only [sortInsert, if_neg h, List.mem_cons, ih]
        tauto

theorem pairwise_sortInsert {α : Type} {r : α → α → Prop}
    {before : α → α → Bool}
    (hyes : ∀ a b, before a b = true → r a b)
    (hno : ∀ a b, before a b = false → r b a)
    (htrans : ∀ a b c, r a b → r b c → r a c)
    (x : α) (l : List α) (h : l.Pairwise r) :
    (sortInsert before x l).Pairwise r := by
  induction l with
  | nil => simp [sortInsert]
  | cons y ys ih =>
      rcases List.pairwise_cons.mp h with ⟨hy, hys⟩
      by_cases hb : before x y = true
      · rw [sortInsert, if_pos hb]
        refine List.pairwise_cons.mpr ⟨?_, h⟩
        intro z hz
        rcases List.mem_cons.mp hz with hz | hz
        · exact hz ▸ hyes x y hb
        · exact htrans x y z (hyes x y hb) (hy z hz)
      · rw [sortInsert, if_neg hb]
        refine List.pairwise_cons.mpr ⟨?_, ih hys⟩
        intro z hz
        rcases (mem_sortInsert before x z ys).mp hz with hz | hz
        · exact hz ▸ hno x y (Bool.eq_false_iff.mpr hb)
        · exact hy z hz

theorem pairwise_stableSort {α : Type} {r : α → α → Prop}
    {before : α → α → Bool}
    (hyes : ∀ a b, before a b = true → r a b)
    (hno : ∀ a b, before a b = false → r b a)
    (htrans : ∀ a b c, r a b → r b c → r a c)
    (l : List α) : (stableSort before l).Pairwise r := by
  induction l with
  | nil => exact List.Pairwise.nil
  | cons x xs ih => exact pairwise_sortInsert hyes hno htrans x _ ih

/-! ### Claim C8 -/

/-- An account whose transaction list first touches category \"B\" and then
category \"A\", with equal amounts, so the two rollups tie. -/
def tieAccount : AccountSummary :=
  { accountId := "a1", accountName := "A", type := none, subtype := none,
    isSharedSource := false, totalAmount := 20, transactionCount := 2,
    transactions :=
      [ { id := "t1", date := "2025-01-02", description := "m1", amount := 10,
          normalizedCategory := some "B", isShared := false },
        { id := "t2", date := "2025-01-03", description := "m2", amount := 10,
          normalizedCategory := some "A", isShared := false } ] }

/-- C8 (counterexample): on `tieAccount` the rollups for \"B\" and \"A\" tie
at 10, and the computed order is [\"B\", \"A\"] (first-encountered order, JS
stable sort), which violates \"ties broken by category name ascending\". -/
theorem categoryRollups_tie_not_name_sorted :
    ¬ (computeCategoryRollups [tieAccount]).Pairwise
        (fun a b => b.totalAmount < a.totalAmount
          ∨ (a.totalAmount = b.totalAmount ∧ a.category < b.category)) := by
  have e10 : round2 10 = 10 :=
    (round2_eval 10 1000 (by norm_num) (by norm_num)).trans (by norm_num)
  have hBA : ¬ ("B" : String) < "A" := by
    rw [String.lt_iff_toList_lt]
    decide
  have hBe : ("B" : String) ≠ "" := by decide
  have hAe : ("A" : String) ≠ "" := by decide
  have hBA2 : ("B" : String) ≠ "A" := by decide
  have hlist : computeCategoryRollups [tieAccount]
      = [{ category := "B", totalAmount := 10, transactionCount := 1 },
         { category := "A", totalAmount := 10, transactionCount := 1 }] := by
    norm_num [computeCategoryRollups, tieAccount, addToCategoryMap,
      jsCategoryLabel, stableSort, sortInsert, e10, hBe, hAe, hBA2,
      decide_eq_true_eq]
  rw [hlist]
  intro h
  rcases List.pairwise_cons.mp h with ⟨hfirst, _⟩
  rcases hfirst _ (List.mem_cons_self _ _) with hlt | ⟨_, hname⟩
  · exact lt_irrefl _ hlt
  · exact hBA hname

/-- C8 (amended): the rollup list is sorted descending by `totalAmount`;
ties keep the order in which the categories were first encountered (the JS
sort is stable), not category-name order. -/
theorem categoryRollups_sorted_desc (accounts : List AccountSummary) :
    (computeCategoryRollups accounts).Pairwise
      (fun a b => b.totalAmount ≤ a.totalAmount) := by
  apply pairwise_stableSort
  · exact fun a b hb => of_decide_eq_true hb
  · exact fun a b hb => le_of_not_le (of_decide_eq_false hb)
  · exact fun a b c h1 h2 => le_trans h2 h1

/-! ## Transaction recategorization
(src/app/dashboard/dashboard-tabs.tsx `updateTransactionCategory` lines
147-187, and the transactions `PATCH` handler): the store update
`.update(patch).eq('id', id).eq('user_id', userId).select().single()`
applies the patch to the matching row and returns the POST-update row. -/

/-- A row of the `transactions` table. -/
structure DbTransaction where
  id : String
  user_id : String
  account_id : String
  date : String
  amount : ℚ
  merchant_name : String
  normalized_category : Option String
  is_shared : Bool
deriving DecidableEq, Repr

/-- The `.eq('id', id).eq('user_id', userId)` row filter. -/
def matchesIdAndUser (txId uid : String) (t : DbTransaction) : Bool :=
  t.id == txId && t.user_id == uid

/-- Model of `updateTransactionCategory`: set `normalized_category` on the matching
row and return the row as stored after the update (`.select().single()`),
together with the new store. -/
def updateTransactionCategory (store : List DbTransaction)
    (uid txId newCategory : String) :
    Option DbTransaction × List DbTransaction :=
  let updated := store.map (fun t =>
    if matchesIdAndUser txId uid t then
      { t with normalized_category := some newCategory }
    else t)
  (updated.find? (matchesIdAndUser txId uid), updated)

/-- A store holding one transaction of amount 25 in category \"OLD\". -/
def oldCategoryStore : List DbTransaction :=
  [ { id := "t1", user_id := "u", account_id := "a1", date := "2025-01-05",
      amount := 25, merchant_name := "M", normalized_category := some "OLD",
      is_shared := false } ]

/-! ### Claim C9 -/

/-- C9 (counterexample): recategorizing the stored \"OLD\" transaction to
\"NEW\" returns the post-update row — its category field is \"NEW\", and no
returned value carries the prior category \"OLD\", so the claimed
prior-category delta return does not hold. -/
theorem updateTransaction_returns_new_category :
    (oldCategoryStore.map (fun t => t.normalized_category)) = [some "OLD"]
    ∧ (updateTransactionCategory oldCategoryStore "u" "t1" "NEW").1
        = some { id := "t1", user_id := "u", account_id := "a1",
                 date := "2025-01-05", amount := 25, merchant_name := "M",
                 normalized_category := some "NEW", is_shared := false }
    ∧ ¬ ∃ r, (updateTransactionCategory oldCategoryStore "u" "t1" "NEW").1
          = some r ∧ r.normalized_category = some "OLD" := by
  have hfind : (updateTransactionCategory oldCategoryStore "u" "t1" "NEW").1
      = some { id := "t1", user_id := "u", account_id := "a1",
               date := "2025-01-05", amount := 25, merchant_name := "M",
               normalized_category := some "NEW", is_shared := false } := by
    simp [updateTransactionCategory, oldCategoryStore, matchesIdAndUser,
      List.find?]
  refine ⟨rfl, hfind, ?_⟩
  rintro ⟨r, hr, hcat⟩
  rw [hfind] at hr
  cases hr
  exact (by decide : (some "NEW" : Option String) ≠ some "OLD") hcat

/-- C9 (amended): a successful recategorization returns the post-update
row: the transaction's (unchanged) amount together with the NEW category;
the row returned is the stored row with only `normalized_category`
replaced, so the prior category is not part of the return value. -/
theorem updateTransaction_returns_updated_row (store : List DbTransaction)
    (uid txId newCat : String) (r : DbTransaction)
    (h : (updateTransactionCategory store uid txId newCat).1 = some r) :
    ∃ t ∈ store, t.id = txId ∧ t.user_id = uid
      ∧ r = { t with normalized_category := some newCat }
      ∧ r.amount = t.amount
      ∧ r.normalized_category = some newCat := by
  induction store with
  | nil => simp [updateTransactionCategory] at h
  | cons t rest ih =>
      by_cases hm : matchesIdAndUser txId uid t = true
      · have hm' : matchesIdAndUser txId uid
            { t with normalized_category := some newCat } = true := hm
        have hr : r = { t with normalized_category := some newCat } := by
          simp only [updateTransactionCategory, List.map_cons, if_pos hm,
            List.find?_cons_of_pos _ hm'] at h
          exact (Option.some_inj.mp h).symm
        have hids : t.id = txId ∧ t.user_id = uid := by
          have hm2 := hm
          simp [matchesIdAndUser] at hm2
          exact hm2
        exact ⟨t, List.mem_cons_self t rest, hids.1, hids.2, hr,
          by rw [hr], by rw [hr]⟩
      · have hmf : matchesIdAndUser txId uid t = false :=
          Bool.eq_false_iff.mpr hm
        have h' : (updateTransactionCategory rest uid txId newCat).1 = some r := by
          simpa only [updateTransactionCategory, List.map_cons, hmf,
            Bool.false_eq_true, if_false, List.find?_cons_of_neg _ hm] using h
        rcases ih h' with ⟨t', ht', rest'⟩
        exact ⟨t', List.mem_cons_of_mem t ht', rest'⟩

/-- Witness for the amended C9 theorem at the concrete store. -/
theorem updateTransaction_returns_updated_row_witness :
    ∃ t ∈ oldCategoryStore, t.id = "t1" ∧ t.user_id = "u"
      ∧ ({ id := "t1", user_id := "u", account_id := "a1",
           date := "2025-01-05", amount := 25, merchant_name := "M",
           normalized_category := some "NEW", is_shared := false }
            : DbTransaction)
          = { t with normalized_category := some "NEW" }
      ∧ ({ id := "t1", user_id := "u", account_id := "a1",
           date := "2025-01-05", amount := 25, merchant_name := "M",
           normalized_category := some "NEW", is_shared := false }
            : DbTransaction).amount = t.amount
      ∧ ({ id := "t1", user_id := "u", account_id := "a1",
           date := "2025-01-05", amount := 25, merchant_name := "M",
           normalized_category := some "NEW", is_shared := false }
            : DbTransaction).normalized_category = some "NEW" :=
  updateTransaction_returns_updated_row oldCategoryStore "u" "t1" "NEW" _
    (by simp [updateTransactionCategory, oldCategoryStore, matchesIdAndUser,
      List.find?])

/-! ## Mock import (src/lib/mockImport.ts `runMockImport`, transaction loop
lines 243-283; the Plaid importer src/unnamed/part_013 lines 245-256 has
the same skip-on-conflict shape).

The loop is modelled per account: for each generated mock transaction,
skip (incrementing `transactionsSkipped`) when a stored row with the same
`(user_id, provider_transaction_id)` already exists, otherwise insert a new
row (incrementing `transactionsCreated`).  The deterministic helpers
`seededRandom`/`getDateDaysAgo` only decide the inserted row's `is_shared`
flag and date, so they are abstracted as function parameters. -/

/-- A row of the `transactions` table as inserted by the import. -/
structure StoredTransaction where
  user_id : String
  account_id : String
  provider_transaction_id : String
  date : String
  amount : ℚ
  merchant_name : String
  normalized_category : String
  is_shared : Bool
deriving DecidableEq, Repr

/-- A generated mock transaction (`MockTransaction` interface). -/
structure MockTransaction where
  provider_transaction_id : String
  merchant_name : String
  normalized_category : String
  amount : ℚ
  daysAgo : ℕ
deriving DecidableEq, Repr

/-- The existence check of lines 245-251: is there a stored row with this
`(user_id, provider_transaction_id)` pair? -/
def txExists (store : List StoredTransaction) (uid pid : String) : Bool :=
  store.any (fun s => s.user_id == uid && s.provider_transaction_id == pid)

/-- Number of stored rows with the given `(user_id, provider_transaction_id)`
pair. -/
def countPair (store : List StoredTransaction) (uid pid : String) : ℕ :=
  (store.filter
    (fun s => s.user_id == uid && s.provider_transaction_id == pid)).length

/-- The row inserted at lines 264-276. -/
def mkStored (uid accId : String) (ishared : MockTransaction → Bool)
    (dateOf : MockTransaction → String) (tx : MockTransaction) :
    StoredTransaction :=
  { user_id := uid
    account_id := accId
    provider_transaction_id := tx.provider_transaction_id
    date := dateOf tx
    amount := tx.amount
    merchant_name := tx.merchant_name
    normalized_category := tx.normalized_category
    is_shared := ishared tx }

/-- The transaction loop of `runMockImport` for one account: returns the
new store, the number of created rows, and the number of skipped rows. -/
def importTransactions (uid accId : String) (ishared : MockTransaction → Bool)
    (dateOf : MockTransaction → String) :
    List MockTransaction → List StoredTransaction →
      List StoredTransaction × ℕ × ℕ
  | [], store => (store, 0, 0)
  | tx :: rest, store =>
      if txExists store uid tx.provider_transaction_id then
        let r := importTransactions uid accId ishared dateOf rest store
        (r.1, r.2.1, r.2.2 + 1)
      else
        let r := importTransactions uid accId ishared dateOf rest
          (store ++ [mkStored uid accId ishared dateOf tx])
        (r.1, r.2.1 + 1, r.2.2)

theorem txExists_eq_true_iff (store : List StoredTransaction)
    (uid pid : String) :
    txExists store uid pid = true ↔ 0 < countPair store uid pid := by
  rw [txExists, countPair]
  constructor
  · intro h
    rcases List.any_eq_true.mp h with ⟨s, hs, hp⟩
    exact List.length_pos_iff_exists_mem.mpr
      ⟨s, List.mem_filter.mpr ⟨hs, hp⟩⟩
  · intro h
    rcases List.length_pos_iff_exists_mem.mp h with ⟨s, hs⟩
    rcases List.mem_filter.mp hs with ⟨hmem, hp⟩
    exact List.any_eq_true.mpr ⟨s, hmem, hp⟩

theorem txExists_eq_false_iff (store : List StoredTransaction)
    (uid pid : String) :
    txExists store uid pid = false ↔ countPair store uid pid = 0 := by
  rw [← Bool.not_eq_true, txExists_eq_true_iff]
  omega

theorem countPair_append_single (store : List StoredTransaction)
    (s : StoredTransaction) (uid pid : String) :
    countPair (store ++ [s]) uid pid
      = countPair store uid pid
        + (if s.user_id = uid ∧ s.provider_transaction_id = pid then 1 else 0) := by
  simp only [countPair, List.filter_append, List.length_append]
  congr 1
  by_cases h : s.user_id = uid ∧ s.provider_transaction_id = pid
  · rw [if_pos h]
    have hp : (s.user_id == uid && s.provider_transaction_id == pid) = true := by
      simp [h.1, h.2]
    simp [List.filter_cons, hp]
  · rw [if_neg h]
    have hp : (s.user_id == uid && s.provider_transaction_id == pid) = false := by
      by_contra hb
      rw [Bool.not_eq_false, Bool.and_eq_true, beq_iff_eq, beq_iff_eq] at hb
      exact h hb
    simp [List.filter_cons, hp]

/-- Inserting `pid0 ≠ pid` into the key list does not change the clause
about `pid`. -/
theorem ite_count_mem_cons (c : ℕ) (pid pid0 : String) (l : List String)
    (hp : pid ≠ pid0) :
    (if c = 0 ∧ pid ∈ l then 1 else c)
      = if c = 0 ∧ pid ∈ pid0 :: l then 1 else c := by
  by_cases h1 : c = 0 ∧ pid ∈ l
  · rw [if_pos h1, if_pos ⟨h1.1, List.mem_cons_of_mem _ h1.2⟩]
  · rw [if_neg h1, if_neg ?_]
    intro h
    rcases List.mem_cons.mp h.2 with he | he
    · exact hp he
    · exact h1 ⟨h.1, he⟩

/-- The count of a `(user_id, provider_transaction_id)` pair after the
loop of the import: a pair absent before and present in the input ends with
exactly one row; every other pair keeps its prior count. -/
theorem countPair_importTransactions (uid accId : String)
    (ishared : MockTransaction → Bool) (dateOf : MockTransaction → String)
    (txs : List MockTransaction) (store : List StoredTransaction)
    (pid : String) :
    countPair (importTransactions uid accId ishared dateOf txs store).1 uid pid
      = if countPair store uid pid = 0
            ∧ pid ∈ txs.map (fun t => t.provider_transaction_id)
        then 1 else countPair store uid pid := by
  induction txs generalizing store with
  | nil => simp [importTransactions]
  | cons tx rest ih =>
      by_cases hex : txExists store uid tx.provider_transaction_id = true
      · have hc := (txExists_eq_true_iff store uid
          tx.provider_transaction_id).mp hex
        simp only [importTransactions, if_pos hex]
        rw [ih]
        by_cases hp : pid = tx.provider_transaction_id
        · have hne : ¬ countPair store uid pid = 0 := by rw [hp]; omega
          rw [if_neg (fun h => hne h.1), if_neg (fun h => hne h.1)]
        · rw [List.map_cons]
          exact ite_count_mem_cons _ _ _ _ hp
      · have hc0 : countPair store uid tx.provider_transaction_id = 0 :=
          (txExists_eq_false_iff store uid tx.provider_transaction_id).mp
            (Bool.eq_false_iff.mpr hex)
        simp only [importTransactions, if_neg hex]
        rw [ih]
        have hadd : countPair (store ++ [mkStored uid accId ishared dateOf tx])
            uid pid
            = countPair store uid pid
              + (if tx.provider_transaction_id = pid then 1 else 0) := by
          rw [countPair_append_single]
          congr 1
          by_cases hq : tx.provider_transaction_id = pid
          · rw [if_pos hq, if_pos ⟨rfl, hq⟩]
          · rw [if_neg hq, if_neg (fun hh => hq hh.2)]
        by_cases hp : pid = tx.provider_transaction_id
        · subst hp
          have hadd1 : countPair
              (store ++ [mkStored uid accId ishared dateOf tx]) uid
              tx.provider_transaction_id = 1 := by
            rw [hadd, if_pos rfl, hc0]
          rw [hadd1, if_neg (fun h => Nat.one_ne_zero h.1),
            if_pos ⟨hc0, by rw [List.map_cons]; exact List.mem_cons_self _ _⟩]
        · have hadd2 : countPair
              (store ++ [mkStored uid accId ishared dateOf tx]) uid pid
              = countPair store uid pid := by
            rw [hadd, if_neg (fun hq => hp hq.symm), Nat.add_zero]
          rw [hadd2, List.map_cons]
          exact ite_count_mem_cons _ _ _ _ hp

/-- If every input transaction's pair already exists, the loop leaves the
store unchanged, creates nothing, and skips every row. -/
theorem importTransactions_all_exist (uid accId : String)
    (ishared : MockTransaction → Bool) (dateOf : MockTransaction → String)
    (txs : List MockTransaction) (store : List StoredTransaction)
    (h : ∀ tx ∈ txs, txExists store uid tx.provider_transaction_id = true) :
    importTransactions uid accId ishared dateOf txs store
      = (store, 0, txs.length) := by
  induction txs with
  | nil => simp [importTransactions]
  | cons tx rest ih =>
      have h1 := h tx (List.mem_cons_self tx rest)
      simp only [importTransactions, if_pos h1]
      rw [ih (fun t ht => h t (List.mem_cons_of_mem tx ht))]
      simp [List.length_cons]

/-- Every pair from the input list exists in the store after the import. -/
theorem txExists_after_import (uid accId : String)
    (ishared : MockTransaction → Bool) (dateOf : MockTransaction → String)
    (txs : List MockTransaction) (store : List StoredTransaction) :
    ∀ tx ∈ txs,
      txExists (importTransactions uid accId ishared dateOf txs store).1 uid
        tx.provider_transaction_id = true := by
  intro tx htx
  rw [txExists_eq_true_iff, countPair_importTransactions]
  have hmem : tx.provider_transaction_id
      ∈ txs.map (fun t => t.provider_transaction_id) :=
    List.mem_map_of_mem _ htx
  split_ifs with h
  · omega
  · have : ¬ countPair store uid tx.provider_transaction_id = 0 :=
      fun h0 => h ⟨h0, hmem⟩
    omega

/-! ### Claim C6 -/

/-- C6: importing a transaction whose `(userId, providerTransactionId)` pair
already exists leaves the stored transactions unchanged and counts a skip
(first conjunct: a run in which every pair exists changes nothing and skips
every row); running the same import twice leaves the first run's store
unchanged, creating 0 rows and skipping all of them (second conjunct); and
a pair absent before the import ends with exactly one stored row (third
conjunct). -/
theorem mockImport_idempotent (uid accId : String)
    (ishared : MockTransaction → Bool) (dateOf : MockTransaction → String)
    (txs : List MockTransaction) (store : List StoredTransaction) :
    (∀ (txs2 : List MockTransaction) (store2 : List StoredTransaction),
        (∀ tx ∈ txs2, txExists store2 uid tx.provider_transaction_id = true) →
        importTransactions uid accId ishared dateOf txs2 store2
          = (store2, 0, txs2.length))
    ∧ importTransactions uid accId ishared dateOf txs
        (importTransactions uid accId ishared dateOf txs store).1
      = ((importTransactions uid accId ishared dateOf txs store).1, 0,
          txs.length)
    ∧ (∀ pid, countPair store uid pid = 0 →
        pid ∈ txs.map (fun t => t.provider_transaction_id) →
        countPair (importTransactions uid accId ishared dateOf txs store).1
          uid pid = 1) := by
  refine ⟨fun txs2 store2 h =>
    importTransactions_all_exist uid accId ishared dateOf txs2 store2 h,
    ?_, ?_⟩
  · exact importTransactions_all_exist uid accId ishared dateOf txs _
      (txExists_after_import uid accId ishared dateOf txs store)
  · intro pid h0 hmem
    rw [countPair_importTransactions, if_pos ⟨h0, hmem⟩]

/-- The mock transaction used in the C6 witness. -/
def mockP1 : MockTransaction :=
  { provider_transaction_id := "p1", merchant_name := "UBER EATS",
    normalized_category := "RESTAURANTS", amount := 10, daysAgo := 0 }

/-- Witness for C6 at a concrete one-transaction import from an empty
store: the second run returns the first store unchanged with 0 created and
1 skipped, and the pair is stored exactly once. -/
theorem mockImport_idempotent_witness :
    importTransactions "u" "a" (fun _ => false) (fun _ => "2025-01-05")
        [mockP1]
        (importTransactions "u" "a" (fun _ => false) (fun _ => "2025-01-05")
          [mockP1] []).1
      = ((importTransactions "u" "a" (fun _ => false) (fun _ => "2025-01-05")
          [mockP1] []).1, 0, 1)
    ∧ countPair (importTransactions "u" "a" (fun _ => false)
        (fun _ => "2025-01-05") [mockP1] []).1 "u" "p1" = 1 := by
  have h := mockImport_idempotent "u" "a" (fun _ => false)
    (fun _ => "2025-01-05") [mockP1] []
  refine ⟨?_, ?_⟩
  · have h2 := h.2.1
    simpa using h2
  · exact h.2.2 "p1" (by simp [countPair]) (by simp [mockP1])

end PfcApp
